import Mathlib

/-
Verification of the work-already action-execution engine.

The definitions below are a shallow embedding of src/lib/client.js and
src/lib/scriptedClient.js: JavaScript objects become structures with
Option-valued fields for properties that may be undefined, truthiness
tests are modelled explicitly (the empty string is falsy), callbacks
become values accumulated in the run result, and the listener/timer
races of the socket actions become explicit step functions over an
occurrence trace.  Error message strings follow the source, with quote
characters omitted.
-/

namespace WorkAlready

/-- Channel configuration object passed to io.connect.  The two keys the
client overrides ("auto connect" and "force new connection") are modelled
as explicit optional fields; other properties of an action-supplied
configuration are carried opaquely in `extra`. -/
structure SocketCfg where
  autoConnect : Option Bool
  forceNew : Option Bool
  extra : List (String × String)
deriving DecidableEq

/-- Channel record stored in the page channel map by the socket action,
standing for the namespace object returned by io.connect. -/
structure Channel where
  url : String
  cfg : SocketCfg
deriving DecidableEq

/-- Result record of an HTTP action: statusCode and body start undefined
and are filled in when a response arrives. -/
structure HttpResult where
  statusCode : Option Nat
  body : Option String
deriving DecidableEq

/-- Page record stored at this.page: the http result object, later
extended by the socket action with a channel map (this.page.sockets,
which is undefined until the first socket action touches it). -/
structure Page where
  statusCode : Option Nat
  body : Option String
  sockets : Option (List (String × Channel))
deriving DecidableEq

/-- Event record stored at this.socketEvent by the awaitEmit listener. -/
structure SocketEvent where
  nsp : String
  eventType : String
  args : List String
deriving DecidableEq

/-- Session-scoped mutable state of a Client instance: cookie jar (as an
abstract generation token: request.jar() in clear creates a fresh one),
last page, last ajax result, last socket event, static content cache. -/
structure Session where
  jar : Nat
  page : Option Page
  ajax : Option HttpResult
  socketEvent : Option SocketEvent
  staticData : List (String × String)
deriving DecidableEq

/-- Server endpoint part of the client configuration. -/
structure ServerCfg where
  protocol : String
  host : String
  port : Nat
deriving DecidableEq

/-- Client configuration (config.server and config.sockets).
defaultTimeout is recognized by the full client version whose tests are
in src/test (see the spec-modelled definitions below). -/
structure ClientConfig where
  server : ServerCfg
  defaultNamespace : String
  defaultTimeout : Option Nat
deriving DecidableEq

/-- getUrl from src/lib/client.js: protocol ++ :// ++ host ++ : ++ port ++ path. -/
def getUrl (cfg : ClientConfig) (path : String) : String :=
  cfg.server.protocol ++ "://" ++ cfg.server.host ++ ":" ++ toString cfg.server.port ++ path

/-- Lookup in a JavaScript-object-as-association-list. -/
def assocFind {α : Type} (k : String) : List (String × α) → Option α
  | [] => none
  | (k', v) :: rest => if k' = k then some v else assocFind k rest

/-- Property assignment on a JavaScript object: replace an existing key
in place, else append. -/
def assocInsert {α : Type} (k : String) (v : α) : List (String × α) → List (String × α)
  | [] => [(k, v)]
  | (k', v') :: rest => if k' = k then (k, v) :: rest else (k', v') :: assocInsert k v rest

-- ---------------------------------------
-- HTTP action executor (p._http and its wrappers)
-- ---------------------------------------

/-- Parameter value for an HTTP action: a plain value or a zero-argument
function evaluated at call time. -/
inductive ParamVal
  | str (v : String)
  | fn (v : String)
deriving DecidableEq

/-- Call-time evaluation of a request parameter. -/
def evalParam : ParamVal → String
  | .str v => v
  | .fn v => v

/-- Definition of an http action (type http, also produced by the ajax,
get and post sugar). -/
structure HttpAction where
  ajax : Bool
  discardResponse : Bool
  method : Option String
  params : Option (List (String × ParamVal))
  path : String
deriving DecidableEq

/-- Settings object handed to the request transport. -/
structure RequestSettings where
  followAllRedirects : Bool
  jar : Nat
  method : String
  url : String
  form : Option (List (String × String))
  qs : Option (List (String × String))
deriving DecidableEq

/-- Construction of the request settings in p._http: method defaults to
GET, parameters are evaluated, and become the form of a POST or the
query string otherwise. -/
def buildSettings (cfg : ClientConfig) (a : HttpAction) (s : Session) : RequestSettings :=
  let m := match a.method with | some x => x | none => "GET"
  let ps := a.params.map (fun l => l.map (fun kv => (kv.1, evalParam kv.2)))
  { followAllRedirects := true
    jar := s.jar
    method := m
    url := getUrl cfg a.path
    form := if m = "POST" then ps else none
    qs := if m = "POST" then none else ps }

/-- What the request transport hands to its callback: (error, response,
body); the response object is modelled by its status code and is absent
when the server is unreachable. -/
structure TransportReply where
  error : Option String
  response : Option Nat
  body : String
deriving DecidableEq

/-- Result of running an http action: the session afterwards, the list of
callback invocations in order (error, result record), and the request
settings when a request was issued. -/
structure HttpRun where
  session : Session
  callbacks : List (Option String × Option HttpResult)
  request : Option RequestSettings
deriving DecidableEq

/-- Shallow embedding of p._http.  The missing-path branch in the source
invokes the callback but does not return, so the request still proceeds
and a second callback follows; this is modelled by the callback list.
A response with any status code is recorded into the result record and
into the session (ajax result or page per the ajax flag, unless
discardResponse), and the callback receives the transport error, which
is untouched by the status code. -/
def runHttp (cfg : ClientConfig) (a : HttpAction) (s : Session) (reply : TransportReply) : HttpRun :=
  if a.ajax = true ∧ s.page = none then
    ⟨s, [(some "Action: http: a page must be loaded before making an AJAX request.", none)], none⟩
  else if a.method = some "POST" ∧ s.page = none then
    ⟨s, [(some "Action: http: Cannot submit a form unless a page is loaded.", none)], none⟩
  else
    let settings := buildSettings cfg a s
    let pathCb : List (Option String × Option HttpResult) :=
      if a.path = "" then
        [(some "Action: http: missing path parameter in action description.", none)]
      else []
    match reply.response with
    | none =>
      ⟨s, pathCb ++ [(some ("Response is empty: the target server is probably not running. Path:" ++ a.path),
          some ⟨none, none⟩)], some settings⟩
    | some code =>
      let result : HttpResult := ⟨some code, some reply.body⟩
      let s' :=
        if a.discardResponse = true then s
        else if a.ajax = true then { s with ajax := some result }
        else { s with page := some ⟨some code, some reply.body, none⟩ }
      ⟨s', pathCb ++ [(reply.error, some result)], some settings⟩

/-- Shallow embedding of p._ajax: force the ajax flag and delegate. -/
def runAjax (cfg : ClientConfig) (a : HttpAction) (s : Session) (reply : TransportReply) : HttpRun :=
  runHttp cfg { a with ajax := true } s reply

/-- Shallow embedding of p._get: force method GET, ajax false, delegate. -/
def runGet (cfg : ClientConfig) (a : HttpAction) (s : Session) (reply : TransportReply) : HttpRun :=
  runHttp cfg { a with method := some "GET", ajax := false } s reply

/-- Shallow embedding of p._post: force method POST, ajax false, delegate. -/
def runPost (cfg : ClientConfig) (a : HttpAction) (s : Session) (reply : TransportReply) : HttpRun :=
  runHttp cfg { a with method := some "POST", ajax := false } s reply

-- ---------------------------------------
-- C1
-- ---------------------------------------

/-- C1: for every HTTP action (generic-request, get, post, ajax) that
receives a terminal response, a non-2xx status code is not reported as an
error: the single terminal callback carries no error and the ordinary
result record with that status code and body, by the same rule for every
status code (no case distinction on 2xx anywhere in the run). -/
theorem http_non2xx_is_not_an_error (cfg : ClientConfig) (a : HttpAction) (s : Session)
    (code : Nat) (body : String) (hpage : s.page ≠ none) (hpath : a.path ≠ "") :
    (runHttp cfg a s ⟨none, some code, body⟩).callbacks = [(none, some ⟨some code, some body⟩)]
    ∧ (runGet cfg a s ⟨none, some code, body⟩).callbacks = [(none, some ⟨some code, some body⟩)]
    ∧ (runPost cfg a s ⟨none, some code, body⟩).callbacks = [(none, some ⟨some code, some body⟩)]
    ∧ (runAjax cfg a s ⟨none, some code, body⟩).callbacks = [(none, some ⟨some code, some body⟩)] := by
  refine ⟨?_, ?_, ?_, ?_⟩ <;>
    simp [runHttp, runGet, runPost, runAjax, hpage, hpath]

/-- Witness for C1 at a concrete 404 response on a session with a page. -/
theorem http_non2xx_is_not_an_error_witness :
    (runHttp ⟨⟨"http", "localhost", 10080⟩, "", none⟩
        ⟨false, false, none, none, "/missing"⟩
        ⟨0, some ⟨some 200, some "<html>", none⟩, none, none, []⟩
        ⟨none, some 404, "404 Response"⟩).callbacks
      = [(none, some ⟨some 404, some "404 Response"⟩)] :=
  (http_non2xx_is_not_an_error ⟨⟨"http", "localhost", 10080⟩, "", none⟩
    ⟨false, false, none, none, "/missing"⟩
    ⟨0, some ⟨some 200, some "<html>", none⟩, none, none, []⟩
    404 "404 Response" (by decide) (by decide)).1

-- ---------------------------------------
-- Socket lifecycle manager (p._socket) and the event actions
-- ---------------------------------------

/-- Resolution of action.namespace || config.sockets.defaultNamespace:
the empty string is falsy in JavaScript, so it also falls back. -/
def effectiveNsp (cfg : ClientConfig) (x : Option String) : String :=
  match x with
  | some n => if n = "" then cfg.defaultNamespace else n
  | none => cfg.defaultNamespace

/-- Configuration the constructor stores for subsequent socket
connections on a page (this.socketConfig). -/
def socketConfig : SocketCfg := ⟨some false, some false, []⟩

/-- Configuration the constructor stores for the first socket connection
on a page (this.firstSocketConfig). -/
def firstSocketConfig : SocketCfg := ⟨some false, some true, []⟩

/-- The for-in loop in p._socket copying every override property onto the
cloned action configuration. -/
def overrideWith (base ov : SocketCfg) : SocketCfg :=
  { base with
    autoConnect := match ov.autoConnect with | some b => some b | none => base.autoConnect
    forceNew := match ov.forceNew with | some b => some b | none => base.forceNew }

/-- Definition of a socket action. -/
structure SocketAction where
  nsp : Option String
  timeout : Option Nat
  socketCfgArg : Option SocketCfg
deriving DecidableEq

/-- Callback invocations recorded for a socket action: the shared
listener is invoked with the event argument (undefined for connect, the
error for the error event), the timer invokes the callback with the
timeout error. -/
inductive SocketCall
  | done (err : Option String)
  | timedOut (msg : String)
deriving DecidableEq

/-- State of the race p._socket sets up: the two one-shot registrations
of the shared listener, the timer, the callback invocations so far, and
the session the closures capture (which they never modify). -/
structure SocketRace where
  sess : Session
  nsp : String
  connectOn : Bool
  errorOn : Bool
  timerActive : Bool
  calls : List SocketCall
deriving DecidableEq

/-- Fresh race state right after p._socket registers its two one-shot
listeners and starts its timer. -/
def socketRaceInit (s : Session) (nsp : String) : SocketRace :=
  ⟨s, nsp, true, true, true, []⟩

/-- Outcome of the synchronous part of p._socket. -/
inductive SocketSetup
  | failed (s : Session) (err : String)
  | immediate (s : Session) (cfgUsed : SocketCfg)
  | racing (r : SocketRace) (cfgUsed : SocketCfg)
deriving DecidableEq

/-- First-connection test of p._socket: true when the page has no channel
map yet or its key set is empty. -/
def socketFirst (pg : Page) : Bool :=
  match pg.sockets with
  | none => true
  | some m => m.isEmpty

/-- Channel configuration p._socket passes to io.connect: the cloned
action configuration (or an empty object) with the first or subsequent
override object copied onto it. -/
def socketUsedConfig (a : SocketAction) (pg : Page) : SocketCfg :=
  overrideWith (match a.socketCfgArg with | some c => c | none => ⟨none, none, []⟩)
    (if socketFirst pg then firstSocketConfig else socketConfig)

/-- Shallow embedding of the synchronous part of p._socket: precondition
check, namespace resolution, first-connection test on the page channel
map, configuration overrides, insertion of the new channel into
this.page.sockets keyed by namespace, and then either the synchronous
already-connected callback or the listener/timer race. -/
def runSocketSetup (cfg : ClientConfig) (a : SocketAction) (s : Session)
    (alreadyConnected : Bool) : SocketSetup :=
  match s.page with
  | none => .failed s "Action: socket: a page must be loaded before connecting with Socket.IO."
  | some pg =>
    let nsp := effectiveNsp cfg a.nsp
    let used := socketUsedConfig a pg
    let ch : Channel := ⟨getUrl cfg nsp, used⟩
    let m0 := match pg.sockets with | none => [] | some m => m
    let pg' : Page := { pg with sockets := some (assocInsert nsp ch m0) }
    let s' : Session := { s with page := some pg' }
    if alreadyConnected then .immediate s' used
    else .racing (socketRaceInit s' nsp) used

/-- Channel configuration an outcome of p._socket passed to io.connect,
when a connection was attempted. -/
def SocketSetup.usedConfig : SocketSetup → Option SocketCfg
  | .failed _ _ => none
  | .immediate _ c => some c
  | .racing _ c => some c

/-- Occurrences the environment can deliver to an installed race: a named
event with its arguments, or the firing of the installed timer. -/
inductive Occ
  | ev (name : String) (args : List String)
  | timer
deriving DecidableEq

/-- One occurrence delivered to the race of p._socket.  The shared
listener is registered once for connect and once for error; when either
fires, that one registration is consumed, the listener clears the timer
and invokes the callback — the sibling registration is not removed.  The
timer handler removes both registrations and invokes the callback with
the timeout error. -/
def socketStep (r : SocketRace) : Occ → SocketRace
  | .ev name args =>
    if name = "connect" ∧ r.connectOn = true then
      { r with connectOn := false, timerActive := false,
               calls := r.calls ++ [.done args.head?] }
    else if name = "error" ∧ r.errorOn = true then
      { r with errorOn := false, timerActive := false,
               calls := r.calls ++ [.done (some (args.headD ""))] }
    else r
  | .timer =>
    if r.timerActive = true then
      { r with timerActive := false, connectOn := false, errorOn := false,
               calls := r.calls ++ [.timedOut ("Timed out waiting on connection for socket on namespace " ++ r.nsp)] }
    else r

/-- Delivery of a whole occurrence trace to a socket race. -/
def socketRun (r : SocketRace) (occs : List Occ) : SocketRace :=
  occs.foldl socketStep r

-- ---------------------------------------
-- Emit and awaitEmit (p._emit, p._awaitEmit)
-- ---------------------------------------

/-- Outcome of a synchronous action body: a callback invocation with an
optional error, or an exception escaping the action. -/
inductive EmitOutcome
  | cb (err : Option String)
  | thrown (msg : String)
deriving DecidableEq

/-- Definition of an emit action. -/
structure EmitAction where
  nsp : Option String
  args : List String
deriving DecidableEq

/-- Shallow embedding of p._emit.  With a page loaded but no channel map
on it, the source reads this.page.sockets[namespace] with
this.page.sockets undefined, which throws a TypeError instead of
reaching the no-connected-socket callback. -/
def runEmit (cfg : ClientConfig) (a : EmitAction) (s : Session) : Session × EmitOutcome :=
  match s.page with
  | none => (s, .cb (some "Cannot emit unless a page is loaded."))
  | some pg =>
    if a.args.isEmpty then
      (s, .cb (some "For emit actions, action.args must be an array that at least includes the event type string."))
    else
      let nsp := effectiveNsp cfg a.nsp
      match pg.sockets with
      | none => (s, .thrown "TypeError: cannot read property of undefined reading this.page.sockets")
      | some m =>
        match assocFind nsp m with
        | none => (s, .cb (some ("No connected socket for namespace: " ++ nsp)))
        | some _ => (s, .cb none)

/-- Definition of an awaitEmit action. -/
structure AwaitAction where
  nsp : Option String
  eventType : String
  timeout : Option Nat
deriving DecidableEq

/-- Callback invocations recorded for an awaitEmit action. -/
inductive AwaitCall
  | ok (ev : SocketEvent)
  | timedOut (msg : String)
deriving DecidableEq

/-- State of the race p._awaitEmit sets up: the one-shot event listener,
the timer, the callback invocations so far, and the captured session
(whose socketEvent the listener sets). -/
structure AwaitRace where
  sess : Session
  nsp : String
  eventType : String
  listenerOn : Bool
  timerActive : Bool
  calls : List AwaitCall
deriving DecidableEq

/-- Fresh race state right after p._awaitEmit installs its timer and
one-shot listener. -/
def awaitRaceInit (s : Session) (nsp eventType : String) : AwaitRace :=
  ⟨s, nsp, eventType, true, true, []⟩

/-- Outcome of the synchronous part of p._awaitEmit. -/
inductive AwaitSetup
  | failed (s : Session) (out : EmitOutcome)
  | racing (r : AwaitRace)
deriving DecidableEq

/-- Shallow embedding of the synchronous part of p._awaitEmit: the same
precondition and channel lookup as p._emit (including the TypeError when
the page has no channel map), then the timer and one-shot listener. -/
def runAwaitEmitSetup (cfg : ClientConfig) (a : AwaitAction) (s : Session) : AwaitSetup :=
  match s.page with
  | none => .failed s (.cb (some "Cannot emit unless a page is loaded."))
  | some pg =>
    let nsp := effectiveNsp cfg a.nsp
    match pg.sockets with
    | none => .failed s (.thrown "TypeError: cannot read property of undefined reading this.page.sockets")
    | some m =>
      match assocFind nsp m with
      | none => .failed s (.cb (some ("No connected socket for namespace: " ++ nsp)))
      | some _ => .racing (awaitRaceInit s nsp a.eventType)

/-- One occurrence delivered to the race of p._awaitEmit: the one-shot
listener for the awaited event type clears the timer, stores the event
record into this.socketEvent and invokes the callback with it; the timer
handler removes the listener and invokes the callback with the timeout
error. -/
def awaitStep (r : AwaitRace) : Occ → AwaitRace
  | .ev name args =>
    if name = r.eventType ∧ r.listenerOn = true then
      let e : SocketEvent := ⟨r.nsp, r.eventType, args⟩
      { r with listenerOn := false, timerActive := false,
               sess := { r.sess with socketEvent := some e },
               calls := r.calls ++ [.ok e] }
    else r
  | .timer =>
    if r.timerActive = true then
      { r with timerActive := false, listenerOn := false,
               calls := r.calls ++ [.timedOut ("Timed out waiting on event " ++ r.eventType ++ " from socket namespace " ++ r.nsp)] }
    else r

/-- Delivery of a whole occurrence trace to an awaitEmit race. -/
def awaitRun (r : AwaitRace) (occs : List Occ) : AwaitRace :=
  occs.foldl awaitStep r

-- ---------------------------------------
-- Race invariants
-- ---------------------------------------

/-- Reachable states of an awaitEmit race: either nothing has fired yet
(both arms armed, no callback), or one arm fired (both arms disarmed,
exactly one callback). -/
def AwaitInv (r : AwaitRace) : Prop :=
  (r.listenerOn = true ∧ r.timerActive = true ∧ r.calls = []) ∨
  (r.listenerOn = false ∧ r.timerActive = false ∧ r.calls.length = 1)

theorem awaitRun_nil (r : AwaitRace) : awaitRun r [] = r := rfl

theorem awaitRun_cons (r : AwaitRace) (o : Occ) (rest : List Occ) :
    awaitRun r (o :: rest) = awaitRun (awaitStep r o) rest := rfl

theorem awaitStep_finished (r : AwaitRace) (o : Occ)
    (h1 : r.listenerOn = false) (h2 : r.timerActive = false) : awaitStep r o = r := by
  cases o with
  | ev name args => simp [awaitStep, h1]
  | timer => simp [awaitStep, h2]

theorem awaitRun_finished (r : AwaitRace) (occs : List Occ)
    (h1 : r.listenerOn = false) (h2 : r.timerActive = false) : awaitRun r occs = r := by
  induction occs with
  | nil => rfl
  | cons o rest ih => rw [awaitRun_cons, awaitStep_finished r o h1 h2]; exact ih

theorem awaitStep_inv (r : AwaitRace) (o : Occ) (h : AwaitInv r) : AwaitInv (awaitStep r o) := by
  rcases h with ⟨h1, h2, h3⟩ | ⟨h1, h2, h3⟩
  · cases o with
    | ev name args =>
      by_cases hc : name = r.eventType
      · right; simp [awaitStep, hc, h1, h3]
      · have hid : awaitStep r (.ev name args) = r := by simp [awaitStep, hc]
        rw [hid]; exact Or.inl ⟨h1, h2, h3⟩
    | timer =>
      right; simp [awaitStep, h2, h3]
  · rw [awaitStep_finished r o h1 h2]; exact Or.inr ⟨h1, h2, h3⟩

theorem awaitRun_inv (occs : List Occ) : ∀ r : AwaitRace, AwaitInv r → AwaitInv (awaitRun r occs) := by
  induction occs with
  | nil => intro r h; exact h
  | cons o rest ih =>
    intro r h
    rw [awaitRun_cons]
    exact ih (awaitStep r o) (awaitStep_inv r o h)

theorem awaitRun_timer_mem (occs : List Occ) :
    ∀ r : AwaitRace, AwaitInv r → Occ.timer ∈ occs → (awaitRun r occs).calls.length = 1 := by
  induction occs with
  | nil => intro r _ hmem; cases hmem
  | cons o rest ih =>
    intro r hInv hmem
    rw [awaitRun_cons]
    rcases List.mem_cons.mp hmem with ho | hrest
    · rcases hInv with ⟨h1, h2, h3⟩ | ⟨h1, h2, h3⟩
      · have hfire : (awaitStep r o).listenerOn = false ∧ (awaitStep r o).timerActive = false ∧
            (awaitStep r o).calls.length = 1 := by
          rw [← ho]; refine ⟨?_, ?_, ?_⟩ <;> simp [awaitStep, h2, h3]
        rw [awaitRun_finished _ rest hfire.1 hfire.2.1]
        exact hfire.2.2
      · rw [awaitStep_finished r o h1 h2, awaitRun_finished r rest h1 h2]
        exact h3
    · have hInv' := awaitStep_inv r o hInv
      rcases hInv' with ⟨h1, h2, h3⟩ | ⟨h1, h2, h3⟩
      · exact ih (awaitStep r o) (Or.inl ⟨h1, h2, h3⟩) hrest
      · rw [awaitRun_finished _ rest h1 h2]; exact h3

/-- Reachable states of a socket-connect race: nothing fired yet; the
connect arm fired (its registration consumed, timer cleared, one
callback) with the error registration still armed; symmetrically the
error arm fired with the connect registration still armed; or everything
disarmed after one or two callbacks. -/
def SocketInv (r : SocketRace) : Prop :=
  (r.connectOn = true ∧ r.errorOn = true ∧ r.timerActive = true ∧ r.calls = []) ∨
  (r.connectOn = false ∧ r.errorOn = true ∧ r.timerActive = false ∧ r.calls.length = 1) ∨
  (r.connectOn = true ∧ r.errorOn = false ∧ r.timerActive = false ∧ r.calls.length = 1) ∨
  (r.connectOn = false ∧ r.errorOn = false ∧ r.timerActive = false ∧
    (r.calls.length = 1 ∨ r.calls.length = 2))

theorem socketRun_nil (r : SocketRace) : socketRun r [] = r := rfl

theorem socketRun_cons (r : SocketRace) (o : Occ) (rest : List Occ) :
    socketRun r (o :: rest) = socketRun (socketStep r o) rest := rfl

theorem socketStep_final (r : SocketRace) (o : Occ)
    (hc : r.connectOn = false) (he : r.errorOn = false) (ht : r.timerActive = false) :
    socketStep r o = r := by
  cases o with
  | ev name args => simp [socketStep, hc, he]
  | timer => simp [socketStep, ht]

theorem socketRun_final (r : SocketRace) (occs : List Occ)
    (hc : r.connectOn = false) (he : r.errorOn = false) (ht : r.timerActive = false) :
    socketRun r occs = r := by
  induction occs with
  | nil => rfl
  | cons o rest ih => rw [socketRun_cons, socketStep_final r o hc he ht]; exact ih

theorem socketStep_sess (r : SocketRace) (o : Occ) : (socketStep r o).sess = r.sess := by
  cases o with
  | ev name args =>
    simp only [socketStep]
    split
    · rfl
    · split
      · rfl
      · rfl
  | timer =>
    simp only [socketStep]
    split
    · rfl
    · rfl

theorem socketRun_sess (occs : List Occ) : ∀ r : SocketRace, (socketRun r occs).sess = r.sess := by
  induction occs with
  | nil => intro r; rfl
  | cons o rest ih =>
    intro r
    rw [socketRun_cons, ih (socketStep r o), socketStep_sess]

theorem socketStep_inv (r : SocketRace) (o : Occ) (h : SocketInv r) : SocketInv (socketStep r o) := by
  rcases h with ⟨h1, h2, h3, h4⟩ | ⟨h1, h2, h3, h4⟩ | ⟨h1, h2, h3, h4⟩ | ⟨h1, h2, h3, h4⟩
  · cases o with
    | ev name args =>
      by_cases hcn : name = "connect"
      · right; left; simp [socketStep, hcn, h1, h2, h4]
      · by_cases hce : name = "error"
        · right; right; left; simp [socketStep, hcn, hce, h1, h2, h4]
        · have hid : socketStep r (.ev name args) = r := by simp [socketStep, hcn, hce]
          rw [hid]; exact Or.inl ⟨h1, h2, h3, h4⟩
    | timer =>
      right; right; right
      simp [socketStep, h3, h4]
  · cases o with
    | ev name args =>
      by_cases hce : name = "error"
      · right; right; right
        have hcn : ¬(name = "connect" ∧ r.connectOn = true) := by
          intro hx; rw [hx.2] at h1; cases h1
        simp [socketStep, hcn, hce, h1, h2, h4]
      · have hid : socketStep r (.ev name args) = r := by
          have hcn : ¬(name = "connect" ∧ r.connectOn = true) := by
            intro hx; rw [hx.2] at h1; cases h1
          simp [socketStep, hcn, hce]
        rw [hid]; exact Or.inr (Or.inl ⟨h1, h2, h3, h4⟩)
    | timer =>
      have hid : socketStep r Occ.timer = r := by simp [socketStep, h3]
      rw [hid]; exact Or.inr (Or.inl ⟨h1, h2, h3, h4⟩)
  · cases o with
    | ev name args =>
      by_cases hcn : name = "connect"
      · right; right; right
        simp [socketStep, hcn, h1, h2, h4]
      · have hid : socketStep r (.ev name args) = r := by
          have hce : ¬(name = "error" ∧ r.errorOn = true) := by
            intro hx; rw [hx.2] at h2; cases h2
          simp [socketStep, hcn, hce]
        rw [hid]; exact Or.inr (Or.inr (Or.inl ⟨h1, h2, h3, h4⟩))
    | timer =>
      have hid : socketStep r Occ.timer = r := by simp [socketStep, h3]
      rw [hid]; exact Or.inr (Or.inr (Or.inl ⟨h1, h2, h3, h4⟩))
  · rw [socketStep_final r o h1 h2 h3]
    exact Or.inr (Or.inr (Or.inr ⟨h1, h2, h3, h4⟩))

theorem socketRun_inv (occs : List Occ) : ∀ r : SocketRace, SocketInv r → SocketInv (socketRun r occs) := by
  induction occs with
  | nil => intro r h; exact h
  | cons o rest ih =>
    intro r h
    rw [socketRun_cons]
    exact ih (socketStep r o) (socketStep_inv r o h)

-- ---------------------------------------
-- C2
-- ---------------------------------------

/-- Concrete client configuration for the C2 counterexample. -/
def c2cfg : ClientConfig := ⟨⟨"http", "localhost", 10080⟩, "", none⟩

/-- Concrete session with a loaded page for the C2 counterexample. -/
def c2sess : Session := ⟨0, some ⟨some 200, some "<html>", none⟩, none, none, []⟩

/-- Session after the C2 socket action has recorded its channel. -/
def c2sessAfter : Session :=
  { c2sess with page := some ⟨some 200, some "<html>",
      some [("", ⟨getUrl c2cfg "", overrideWith ⟨none, none, []⟩ firstSocketConfig⟩)]⟩ }

/-- C2 counterexample: a channel-connect whose connect event fires first
does not deregister the error listener, so a subsequent error event
invokes the callback a second time — refuting that exactly one callback
invocation occurs and that no listener installed by the action remains
after the callback has fired. -/
theorem socket_connect_then_error_double_callback :
    runSocketSetup c2cfg ⟨none, some 500, none⟩ c2sess false =
      SocketSetup.racing (socketRaceInit c2sessAfter "") (overrideWith ⟨none, none, []⟩ firstSocketConfig)
  ∧ (socketStep (socketRaceInit c2sessAfter "") (Occ.ev "connect" [])).errorOn = true
  ∧ (socketRun (socketRaceInit c2sessAfter "")
        [Occ.ev "connect" [], Occ.ev "error" ["handshake failed"]]).calls
      = [SocketCall.done none, SocketCall.done (some "handshake failed")] := by
  refine ⟨rfl, rfl, ?_⟩
  rfl

/-- C2 amended: for every await-emit action the claim holds in full —
at most one callback fires, the timer firing guarantees exactly one, and
once a callback has fired the listener and timer are both torn down.
For every channel-connect action, a timeout that fires first produces
exactly one callback and removes both listeners; the timer is always
cleared once any callback has fired and at most two callbacks can ever
occur; but an event arm that wins leaves the opposite event listener
registered (while clearing the timer), so a late callback remains
possible on that listener. -/
theorem await_race_clean_socket_race_leaky (s : Session) (nsp et : String) (occs : List Occ) :
    ((awaitRun (awaitRaceInit s nsp et) occs).calls.length ≤ 1)
  ∧ (Occ.timer ∈ occs → (awaitRun (awaitRaceInit s nsp et) occs).calls.length = 1)
  ∧ ((awaitRun (awaitRaceInit s nsp et) occs).calls ≠ [] →
      (awaitRun (awaitRaceInit s nsp et) occs).listenerOn = false ∧
      (awaitRun (awaitRaceInit s nsp et) occs).timerActive = false)
  ∧ ((socketRun (socketRaceInit s nsp) (Occ.timer :: occs)).calls.length = 1
      ∧ (socketRun (socketRaceInit s nsp) (Occ.timer :: occs)).connectOn = false
      ∧ (socketRun (socketRaceInit s nsp) (Occ.timer :: occs)).errorOn = false
      ∧ (socketRun (socketRaceInit s nsp) (Occ.timer :: occs)).timerActive = false)
  ∧ ((socketStep (socketRaceInit s nsp) (Occ.ev "connect" [])).errorOn = true
      ∧ (socketStep (socketRaceInit s nsp) (Occ.ev "connect" [])).timerActive = false
      ∧ (socketStep (socketRaceInit s nsp) (Occ.ev "connect" [])).connectOn = false)
  ∧ ((socketRun (socketRaceInit s nsp) occs).calls.length ≤ 2)
  ∧ ((socketRun (socketRaceInit s nsp) occs).calls ≠ [] →
      (socketRun (socketRaceInit s nsp) occs).timerActive = false) := by
  have hAI : AwaitInv (awaitRaceInit s nsp et) := Or.inl ⟨rfl, rfl, rfl⟩
  have hares := awaitRun_inv occs (awaitRaceInit s nsp et) hAI
  have hSI : SocketInv (socketRaceInit s nsp) := Or.inl ⟨rfl, rfl, rfl, rfl⟩
  have hsres := socketRun_inv occs (socketRaceInit s nsp) hSI
  have hstepTimer : socketStep (socketRaceInit s nsp) Occ.timer =
      ⟨s, nsp, false, false, false,
        [SocketCall.timedOut ("Timed out waiting on connection for socket on namespace " ++ nsp)]⟩ := by
    simp [socketStep, socketRaceInit]
  have htimerRun : socketRun (socketRaceInit s nsp) (Occ.timer :: occs) =
      ⟨s, nsp, false, false, false,
        [SocketCall.timedOut ("Timed out waiting on connection for socket on namespace " ++ nsp)]⟩ := by
    rw [socketRun_cons, hstepTimer]
    exact socketRun_final _ occs rfl rfl rfl
  refine ⟨?_, awaitRun_timer_mem occs (awaitRaceInit s nsp et) hAI, ?_, ?_, ?_, ?_, ?_⟩
  · rcases hares with ⟨_, _, h3⟩ | ⟨_, _, h3⟩
    · simp [h3]
    · simp [h3]
  · intro hne
    rcases hares with ⟨_, _, h3⟩ | ⟨h1, h2, _⟩
    · exact absurd h3 hne
    · exact ⟨h1, h2⟩
  · rw [htimerRun]; exact ⟨rfl, rfl, rfl, rfl⟩
  · refine ⟨rfl, rfl, rfl⟩
  · rcases hsres with ⟨_, _, _, h4⟩ | ⟨_, _, _, h4⟩ | ⟨_, _, _, h4⟩ | ⟨_, _, _, h4⟩
    · simp [h4]
    · simp [h4]
    · simp [h4]
    · rcases h4 with h4 | h4 <;> simp [h4]
  · intro hne
    rcases hsres with ⟨_, _, h3, h4⟩ | ⟨_, _, h3, _⟩ | ⟨_, _, h3, _⟩ | ⟨_, _, h3, _⟩
    · exact absurd h4 hne
    · exact h3
    · exact h3
    · exact h3

/-- Witness for the amended C2 at concrete inputs: a timer firing on an
await-emit race yields exactly one callback, with cleanup observed, and
similarly for a socket race resolved by its timeout. -/
theorem await_race_clean_socket_race_leaky_witness :
    (awaitRun (awaitRaceInit ⟨0, none, none, none, []⟩ "" "responseOnTest") [Occ.timer]).calls.length = 1
  ∧ ((awaitRun (awaitRaceInit ⟨0, none, none, none, []⟩ "" "responseOnTest") [Occ.timer]).listenerOn = false
      ∧ (awaitRun (awaitRaceInit ⟨0, none, none, none, []⟩ "" "responseOnTest") [Occ.timer]).timerActive = false)
  ∧ (socketRun (socketRaceInit ⟨0, none, none, none, []⟩ "") [Occ.timer]).timerActive = false :=
  ⟨(await_race_clean_socket_race_leaky ⟨0, none, none, none, []⟩ "" "responseOnTest" [Occ.timer]).2.1
      (by decide),
   (await_race_clean_socket_race_leaky ⟨0, none, none, none, []⟩ "" "responseOnTest" [Occ.timer]).2.2.1
      (by decide),
   (await_race_clean_socket_race_leaky ⟨0, none, none, none, []⟩ "" "responseOnTest" [Occ.timer]).2.2.2.2.2.2
      (by decide)⟩

-- ---------------------------------------
-- C6
-- ---------------------------------------

/-- C6: a channel-connect on a page that already has at least one open
channel passes a configuration that does not force a new underlying
connection, while the first channel-connect on a page forces a fresh
one; in both cases connection autostart is disabled. -/
theorem first_and_subsequent_connection_config (cfg : ClientConfig) (a : SocketAction)
    (s : Session) (pg : Page) (ac : Bool) (hpg : s.page = some pg) :
    (∀ m, pg.sockets = some m → m ≠ [] →
      ∃ c, (runSocketSetup cfg a s ac).usedConfig = some c ∧
           c.forceNew = some false ∧ c.autoConnect = some false)
  ∧ (pg.sockets = none →
      ∃ c, (runSocketSetup cfg a s ac).usedConfig = some c ∧
           c.forceNew = some true ∧ c.autoConnect = some false) := by
  have hused : (runSocketSetup cfg a s ac).usedConfig = some (socketUsedConfig a pg) := by
    cases ac <;> simp [runSocketSetup, hpg, SocketSetup.usedConfig]
  constructor
  · intro m hm hne
    refine ⟨socketUsedConfig a pg, hused, ?_, ?_⟩ <;>
      · cases m with
        | nil => exact absurd rfl hne
        | cons x xs => simp [socketUsedConfig, socketFirst, hm, overrideWith, socketConfig]
  · intro hnone
    refine ⟨socketUsedConfig a pg, hused, ?_, ?_⟩ <;>
      simp [socketUsedConfig, socketFirst, hnone, overrideWith, firstSocketConfig]

/-- Witness for C6 at concrete inputs: a page with one open channel gets
a non-forcing configuration, a fresh page a forcing one. -/
theorem first_and_subsequent_connection_config_witness :
    (∃ c, (runSocketSetup c2cfg ⟨none, some 500, none⟩
        ⟨0, some ⟨some 200, some "<html>", some [("/a", ⟨"u", ⟨none, none, []⟩⟩)]⟩, none, none, []⟩
        false).usedConfig = some c ∧ c.forceNew = some false ∧ c.autoConnect = some false)
  ∧ (∃ c, (runSocketSetup c2cfg ⟨none, some 500, none⟩
        ⟨0, some ⟨some 200, some "<html>", none⟩, none, none, []⟩
        false).usedConfig = some c ∧ c.forceNew = some true ∧ c.autoConnect = some false) :=
  ⟨(first_and_subsequent_connection_config c2cfg ⟨none, some 500, none⟩
      ⟨0, some ⟨some 200, some "<html>", some [("/a", ⟨"u", ⟨none, none, []⟩⟩)]⟩, none, none, []⟩
      ⟨some 200, some "<html>", some [("/a", ⟨"u", ⟨none, none, []⟩⟩)]⟩ false rfl).1
      [("/a", ⟨"u", ⟨none, none, []⟩⟩)] rfl (by decide),
   (first_and_subsequent_connection_config c2cfg ⟨none, some 500, none⟩
      ⟨0, some ⟨some 200, some "<html>", none⟩, none, none, []⟩
      ⟨some 200, some "<html>", none⟩ false rfl).2 rfl⟩

-- ---------------------------------------
-- C10
-- ---------------------------------------

/-- Channel recorded in the session for a namespace, when there is one. -/
def pageChannel (s : Session) (n : String) : Option Channel :=
  match s.page with
  | none => none
  | some pg =>
    match pg.sockets with
    | none => none
    | some m => assocFind n m

theorem assocFind_insert {α : Type} (k : String) (v : α) (m : List (String × α)) :
    assocFind k (assocInsert k v m) = some v := by
  induction m with
  | nil => simp [assocInsert, assocFind]
  | cons kv rest ih =>
    obtain ⟨k', v'⟩ := kv
    by_cases h : k' = k
    · simp [assocInsert, h, assocFind]
    · simp [assocInsert, h, assocFind, ih]

/-- C10: a channel-connect inserts the new channel into the page channel
map keyed by its namespace before the connection attempt resolves, and
the entry is still recorded after any subsequent trace of the race —
including one that ends in the connect-timeout error: the error path
does not undo the mutation. -/
theorem channel_recorded_before_resolution (cfg : ClientConfig) (a : SocketAction)
    (s : Session) (ac : Bool) (occs : List Occ) (r : SocketRace) (c : SocketCfg)
    (hr : runSocketSetup cfg a s ac = SocketSetup.racing r c) :
    ∃ ch, pageChannel (socketRun r occs).sess (effectiveNsp cfg a.nsp) = some ch := by
  cases hs : s.page with
  | none => rw [runSocketSetup, hs] at hr; cases hr
  | some pg =>
    rw [runSocketSetup, hs] at hr
    cases ac with
    | true => simp at hr
    | false =>
      simp only [if_neg] at hr
      have hrr := (SocketSetup.racing.injEq _ _ _ _).mp hr
      obtain ⟨hr1, _⟩ := hrr
      rw [socketRun_sess, ← hr1]
      refine ⟨⟨getUrl cfg (effectiveNsp cfg a.nsp), socketUsedConfig a pg⟩, ?_⟩
      simp [socketRaceInit, pageChannel, assocFind_insert]

/-- Witness for C10 at a concrete input: after a connect-timeout (the
timer occurrence), the channel is still recorded for the namespace. -/
theorem channel_recorded_before_resolution_witness :
    ∃ ch, pageChannel
        (socketRun (socketRaceInit c2sessAfter "") [Occ.timer]).sess
        (effectiveNsp c2cfg none) = some ch :=
  channel_recorded_before_resolution c2cfg ⟨none, some 500, none⟩ c2sess false [Occ.timer]
    (socketRaceInit c2sessAfter "") (overrideWith ⟨none, none, []⟩ firstSocketConfig) rfl

-- ---------------------------------------
-- C3
-- ---------------------------------------

/-- Session with a freshly loaded page: this.page.sockets is still
undefined because no socket action has touched it. -/
def pageNoChannelMapSess : Session := ⟨0, some ⟨some 200, some "<html>", none⟩, none, none, []⟩

/-- C3 at the failing input: with a page loaded but no channel map on it,
emit and awaitEmit read a property of the undefined this.page.sockets
and throw a TypeError instead of delivering the no-connected-socket
precondition error through the callback; the session is not mutated. -/
theorem emit_without_channel_map_throws :
    runEmit c2cfg ⟨none, ["test"]⟩ pageNoChannelMapSess =
      (pageNoChannelMapSess,
        EmitOutcome.thrown "TypeError: cannot read property of undefined reading this.page.sockets")
  ∧ runAwaitEmitSetup c2cfg ⟨none, "responseOnTest", some 500⟩ pageNoChannelMapSess =
      AwaitSetup.failed pageNoChannelMapSess
        (EmitOutcome.thrown "TypeError: cannot read property of undefined reading this.page.sockets") :=
  ⟨rfl, rfl⟩

-- ---------------------------------------
-- C7
-- ---------------------------------------

/-- Session with a current page carrying an open channel and a cached
socket event, for the C7 counterexample. -/
def c7sess : Session :=
  ⟨0, some ⟨some 200, some "old", some [("", ⟨"u", ⟨none, none, []⟩⟩)]⟩,
    none, some ⟨"", "responseOnConnect", ["d"]⟩, []⟩

/-- C7 counterexample: a successful non-discarded, non-ajax page load
replaces the page but leaves the cached socket event in place —
this.socketEvent is only deleted by unload or clear, refuting that the
load implicitly discards the cached socket event. -/
theorem page_load_keeps_cached_socket_event :
    (runGet c2cfg ⟨false, false, none, none, "/index.html"⟩ c7sess
        ⟨none, some 200, "new"⟩).session.socketEvent
      = some ⟨"", "responseOnConnect", ["d"]⟩ := rfl

/-- C7 amended: a successful non-discarded, non-ajax page load replaces
the stored page wholesale with a record carrying the new status and body
and no channel map (so the prior page's channels are implicitly
discarded, and at most one page is current), leaving every other session
field — including the cached socket event, which the claim said is
discarded — unchanged. -/
theorem page_load_replaces_page_wholesale (cfg : ClientConfig) (a : HttpAction) (s : Session)
    (code : Nat) (body : String) (hd : a.discardResponse = false) :
    (runGet cfg a s ⟨none, some code, body⟩).session =
        { s with page := some ⟨some code, some body, none⟩ }
  ∧ (s.page ≠ none →
      (runPost cfg a s ⟨none, some code, body⟩).session =
        { s with page := some ⟨some code, some body, none⟩ })
  ∧ (runGet cfg a s ⟨none, some code, body⟩).session.socketEvent = s.socketEvent := by
  refine ⟨?_, ?_, ?_⟩
  · simp [runGet, runHttp, hd]
  · intro hpage
    simp [runPost, runHttp, hd, hpage]
  · simp [runGet, runHttp, hd]

/-- Witness for the amended C7 at the concrete counterexample session. -/
theorem page_load_replaces_page_wholesale_witness :
    (runGet c2cfg ⟨false, false, none, none, "/index.html"⟩ c7sess
        ⟨none, some 200, "new"⟩).session =
      { c7sess with page := some ⟨some 200, some "new", none⟩ } :=
  (page_load_replaces_page_wholesale c2cfg ⟨false, false, none, none, "/index.html"⟩ c7sess
    200 "new" rfl).1

-- ---------------------------------------
-- Static asset crawler (p._getStatic) filtering pipeline
-- ---------------------------------------

/-- Test whether one character list starts with another. -/
def startsWithL : List Char → List Char → Bool
  | _, [] => true
  | [], _ :: _ => false
  | a :: as, b :: bs => (a == b) && startsWithL as bs

/-- Test whether a character list occurs inside another. -/
def hasSubL : List Char → List Char → Bool
  | [], pat => pat.isEmpty
  | c :: rest, pat => startsWithL (c :: rest) pat || hasSubL rest pat

/-- Substring test standing for an unanchored regular-expression match. -/
def strContains (s pat : String) : Bool := hasSubL s.toList pat.toList

/-- The dot stripping applied to each configured extension: one leading
dot is removed when present. -/
def stripDot (e : String) : String :=
  match e.toList with
  | '.' :: rest => String.mk rest
  | _ => e

/-- Default extension allow-list of the getStatic action. -/
def defaultExtensions : List String := [".js", ".css", ".jpg", ".png", ".gif"]

/-- Extension-list defaulting and dot stripping of p._getStatic. -/
def normalizeExtensions (exts : Option (List String)) : List String :=
  (match exts with
   | some l => if l.isEmpty then defaultExtensions else l
   | none => defaultExtensions).map stripDot

/-- The extension alternation test of p._getStatic: the reference must
contain a dot followed by one of the allow-listed extensions (the
regular expression is unanchored). -/
def hasAllowedExtension (exts : List String) (m : String) : Bool :=
  exts.any (fun e => strContains m ("." ++ e))

/-- Truthiness test of this.staticData[match]: present with a non-empty
cached body. -/
def truthyLookup (cache : List (String × String)) (k : String) : Bool :=
  match assocFind k cache with
  | some v => !(v == "")
  | none => false

/-- The map stage of p._getStatic over one extracted reference: null for
absolute references (containing ://), references without an allow-listed
extension, and references with a truthy cache entry; the reference
itself otherwise. -/
def filterRef (cache : List (String × String)) (exts : List String) (m : String) : Option String :=
  if strContains m "://" = true then none
  else if hasAllowedExtension exts m = false then none
  else if truthyLookup cache m = true then none
  else some m

/-- The filter stage of p._getStatic: drop falsy entries (null and the
empty string) and keep an entry only at its last occurrence
(index === array.lastIndexOf(match)). -/
def filterKeepLast : List (Option String) → List String
  | [] => []
  | none :: rest => filterKeepLast rest
  | some s :: rest =>
    if s = "" then filterKeepLast rest
    else if some s ∈ rest then filterKeepLast rest
    else s :: filterKeepLast rest

/-- The whole filtering pipeline of p._getStatic over the references
extracted from the page body. -/
def getStaticFilter (cache : List (String × String)) (exts : List String)
    (refs : List String) : List String :=
  filterKeepLast (refs.map (filterRef cache exts))

/-- Predicate deciding which references survive the drop filters of the
pipeline. -/
def survives (cache : List (String × String)) (exts : List String) (m : String) : Bool :=
  !(strContains m "://") && hasAllowedExtension exts m && !(truthyLookup cache m)

/-- Survival including the JavaScript truthiness of the reference itself
(the filter stage also drops an empty-string reference). -/
def survivesT (cache : List (String × String)) (exts : List String) (m : String) : Bool :=
  survives cache exts m && !(m == "")

/-- First-occurrence de-duplication, as the claim states the pipeline
behaves (for comparison with the source pipeline). -/
def dedupFirstAux (seen : List String) : List String → List String
  | [] => []
  | s :: rest =>
    if s ∈ seen then dedupFirstAux seen rest
    else s :: dedupFirstAux (s :: seen) rest

/-- Filtering as the claim words it: the same drop filters but keeping
the first occurrence of each duplicated reference. -/
def getStaticFilterFirstOrder (cache : List (String × String)) (exts : List String)
    (refs : List String) : List String :=
  dedupFirstAux [] (refs.filter (fun m => survivesT cache exts m))

theorem filterRef_eq (cache : List (String × String)) (exts : List String) (m : String) :
    filterRef cache exts m = if survives cache exts m = true then some m else none := by
  by_cases h1 : strContains m "://" = true <;>
    by_cases h2 : hasAllowedExtension exts m = true <;>
      by_cases h3 : truthyLookup cache m = true <;>
        simp [filterRef, survives, h1, h2, h3]

theorem mem_map_filterRef (cache : List (String × String)) (exts : List String)
    (rest : List String) (s : String) (hs : s ≠ "") :
    (some s ∈ rest.map (filterRef cache exts)) ↔
      s ∈ rest.filter (fun m => survivesT cache exts m) := by
  simp only [List.mem_map, List.mem_filter, filterRef_eq, survivesT]
  constructor
  · rintro ⟨a, ha, hfa⟩
    by_cases hsa : survives cache exts a = true
    · rw [if_pos hsa] at hfa
      obtain rfl : a = s := by injection hfa
      exact ⟨ha, by simp [hsa, hs]⟩
    · rw [if_neg hsa] at hfa; cases hfa
  · rintro ⟨ha, hsv⟩
    have hsvv : survives cache exts s = true := by
      have h := hsv
      simp only [survivesT] at h
      exact (Bool.and_eq_true _ _ ▸ h).1
    exact ⟨s, ha, by rw [if_pos hsvv]⟩

theorem getStaticFilter_eq_dedup (cache : List (String × String)) (exts : List String) :
    ∀ refs : List String,
      getStaticFilter cache exts refs =
        (refs.filter (fun m => survivesT cache exts m)).dedup := by
  intro refs
  induction refs with
  | nil => rfl
  | cons m rest ih =>
    simp only [getStaticFilter, List.map_cons, List.filter_cons] at *
    by_cases hsur : survives cache exts m = true
    · have hf : filterRef cache exts m = some m := by rw [filterRef_eq, if_pos hsur]
      rw [hf]
      by_cases hm : m = ""
      · have hTn : ¬(survivesT cache exts m = true) := by simp [survivesT, hm]
        rw [if_neg hTn]
        simpa [filterKeepLast, hm] using ih
      · have hT : survivesT cache exts m = true := by simp [survivesT, hsur, hm]
        rw [if_pos hT]
        by_cases hmem : m ∈ rest.filter (fun x => survivesT cache exts x)
        · have hmem' : some m ∈ rest.map (filterRef cache exts) :=
            (mem_map_filterRef cache exts rest m hm).mpr hmem
          rw [List.dedup_cons_of_mem hmem]
          simpa [filterKeepLast, hm, hmem'] using ih
        · have hmem' : some m ∉ rest.map (filterRef cache exts) := by
            intro hx; exact hmem ((mem_map_filterRef cache exts rest m hm).mp hx)
          rw [List.dedup_cons_of_not_mem hmem]
          simpa [filterKeepLast, hm, hmem'] using ih
    · have hf : filterRef cache exts m = none := by rw [filterRef_eq, if_neg hsur]
      have hTn : ¬(survivesT cache exts m = true) := by
        simp only [survivesT]
        intro h
        exact hsur (Bool.and_eq_true _ _ ▸ h).1
      rw [hf, if_neg hTn]
      simpa [filterKeepLast] using ih

-- ---------------------------------------
-- C8
-- ---------------------------------------

/-- C8 counterexample: with references a, b, a the source pipeline keeps
the last occurrence of a (output b, a) while the claim's first-occurrence
order would be a, b — refuting the de-duplication clause of the claim. -/
theorem static_filter_last_occurrence_cex :
    getStaticFilter [] ["js"] ["/a.js", "/b.js", "/a.js"] = ["/b.js", "/a.js"]
  ∧ getStaticFilterFirstOrder [] ["js"] ["/a.js", "/b.js", "/a.js"] = ["/a.js", "/b.js"]
  ∧ getStaticFilter [] ["js"] ["/a.js", "/b.js", "/a.js"] ≠
      getStaticFilterFirstOrder [] ["js"] ["/a.js", "/b.js", "/a.js"] := by
  refine ⟨by decide, by decide, by decide⟩

/-- C8 amended: the candidate references are filtered by dropping
references containing ://, keeping only references containing a dot
followed by an allow-listed extension (the default list being script,
stylesheet and common image extensions, dots stripped), dropping
references whose static-cache entry is truthy (present with a non-empty
body) and empty references, and de-duplicating keeping the LAST
occurrence of each reference (this is List.dedup); the output is
duplicate-free. -/
theorem static_filter_pipeline (cache : List (String × String)) (exts : List String)
    (refs : List String) :
    getStaticFilter cache exts refs =
        (refs.filter (fun m => survivesT cache exts m)).dedup
  ∧ (getStaticFilter cache exts refs).Nodup
  ∧ normalizeExtensions none = ["js", "css", "jpg", "png", "gif"] := by
  refine ⟨getStaticFilter_eq_dedup cache exts refs, ?_, by decide⟩
  rw [getStaticFilter_eq_dedup cache exts refs]
  exact List.nodup_dedup _

-- ---------------------------------------
-- Scripted runner (src/lib/scriptedClient.js)
-- ---------------------------------------

/-- Script record: name and actions may be absent or of the wrong type
in the input (modelled by Option), and are validated by runScript. -/
structure ScriptDef (Act : Type) where
  name : Option String
  sleep : Option Nat
  actions : Option (List Act)

/-- State of a ScriptedClient: the inherited session plus the script
fields runScript sets and clear deletes. -/
structure ScriptedState (Act : Type) where
  sess : Session
  script : Option (ScriptDef Act)
  scriptInProgress : Bool

/-- Client.prototype.clear: fresh cookie jar, page, ajax result, socket
event deleted, static cache emptied. -/
def clearSession (s : Session) : Session := ⟨s.jar + 1, none, none, none, []⟩

/-- ScriptedClient.prototype.clear: the inherited clear plus deletion of
this.script and this.scriptInProgress. -/
def scriptedClear {Act : Type} (st : ScriptedState Act) : ScriptedState Act :=
  ⟨clearSession st.sess, none, false⟩

/-- The async.forEachSeries loop of runScript over the action list: each
action runs after the previous one completed without error; the first
error stops the series and becomes its result.  Action execution is a
parameter (the dispatcher), a function from an action and the session to
the new session and an optional error. -/
def runActions {Act : Type} (exec : Act → Session → Session × Option String) :
    List Act → Session → Session × Option String
  | [], s => (s, none)
  | a :: rest, s =>
    match exec a s with
    | (s', none) => runActions exec rest s'
    | (s', some e) => (s', some e)

/-- Outcome of runScript: the state the final callback observes (clear
has already run on the non-validation paths) and the error it is given. -/
structure ScriptRun (Act : Type) where
  stateAtCallback : ScriptedState Act
  error : Option String

/-- Shallow embedding of ScriptedClient.prototype.runScript: the
in-progress and validation checks, then the action series, then clear
before the callback is invoked with the series error. -/
def runScript {Act : Type} (exec : Act → Session → Session × Option String)
    (st : ScriptedState Act) (script : Option (ScriptDef Act)) : ScriptRun Act :=
  if st.scriptInProgress = true then ⟨st, some "Script already underway."⟩
  else
    match script with
    | none => ⟨st, some "Invalid script definition."⟩
    | some sc =>
      match sc.name with
      | none => ⟨st, some "Script name must be a string."⟩
      | some _ =>
        match sc.actions with
        | none => ⟨st, some "Script actions must be an array."⟩
        | some acts =>
          let st1 : ScriptedState Act := { st with script := some sc, scriptInProgress := true }
          let res := runActions exec acts st1.sess
          ⟨scriptedClear { st1 with sess := res.1 }, res.2⟩

-- ---------------------------------------
-- C9
-- ---------------------------------------

/-- C9: for every script run, at the point the callback is invoked the
script state has already been cleared (page, ajax, socket event, static
cache, script and in-progress flag all reset), the callback error is the
result of the action series, an empty action sequence completes with no
error, and a failing action aborts the remaining sequence. -/
theorem script_clears_state_before_callback {Act : Type}
    (exec : Act → Session → Session × Option String)
    (st : ScriptedState Act) (sc : ScriptDef Act) (nm : String) (acts : List Act)
    (hip : st.scriptInProgress = false) (hnm : sc.name = some nm)
    (hacts : sc.actions = some acts) :
    ((runScript exec st (some sc)).stateAtCallback.sess.page = none
      ∧ (runScript exec st (some sc)).stateAtCallback.sess.ajax = none
      ∧ (runScript exec st (some sc)).stateAtCallback.sess.socketEvent = none
      ∧ (runScript exec st (some sc)).stateAtCallback.sess.staticData = []
      ∧ (runScript exec st (some sc)).stateAtCallback.script = none
      ∧ (runScript exec st (some sc)).stateAtCallback.scriptInProgress = false)
  ∧ (runScript exec st (some sc)).error = (runActions exec acts st.sess).2
  ∧ (acts = [] → (runScript exec st (some sc)).error = none)
  ∧ (∀ (a : Act) (rest : List Act) (s0 s1 : Session) (e : String),
      exec a s0 = (s1, some e) → runActions exec (a :: rest) s0 = (s1, some e)) := by
  refine ⟨?_, ?_, ?_, ?_⟩
  · simp [runScript, hip, hnm, hacts, scriptedClear, clearSession]
  · simp [runScript, hip, hnm, hacts]
  · intro he
    subst he
    simp [runScript, hip, hnm, hacts, runActions]
  · intro a rest s0 s1 e hx
    simp [runActions, hx]

/-- Witness for C9: an empty script on a fresh scripted client completes
with no error, everything cleared; and an always-failing action aborts
the series at once. -/
theorem script_clears_state_before_callback_witness :
    ((runScript (fun _ s => (s, some "boom")) ⟨⟨0, none, none, none, []⟩, none, false⟩
        (some ⟨some "an example script", none, some ([] : List Unit)⟩)).error = none)
  ∧ ((runScript (fun _ s => (s, some "boom")) ⟨⟨0, none, none, none, []⟩, none, false⟩
        (some ⟨some "an example script", none, some ([] : List Unit)⟩)).stateAtCallback.scriptInProgress = false)
  ∧ runActions (fun (_ : Unit) s => (s, some "boom")) [(), ()] ⟨0, none, none, none, []⟩ =
      (⟨0, none, none, none, []⟩, some "boom") :=
  ⟨(script_clears_state_before_callback (fun _ s => (s, some "boom"))
      ⟨⟨0, none, none, none, []⟩, none, false⟩
      ⟨some "an example script", none, some ([] : List Unit)⟩ "an example script" []
      rfl rfl rfl).2.2.1 rfl,
   (script_clears_state_before_callback (fun _ s => (s, some "boom"))
      ⟨⟨0, none, none, none, []⟩, none, false⟩
      ⟨some "an example script", none, some ([] : List Unit)⟩ "an example script" []
      rfl rfl rfl).1.2.2.2.2.2,
   (script_clears_state_before_callback (fun _ s => (s, some "boom"))
      ⟨⟨0, none, none, none, []⟩, none, false⟩
      ⟨some "an example script", none, some ([] : List Unit)⟩ "an example script" []
      rfl rfl rfl).2.2.2 () [()] ⟨0, none, none, none, []⟩ ⟨0, none, none, none, []⟩ "boom" rfl⟩

-- ---------------------------------------
-- Action dispatcher vocabulary (C4, spec-modelled)
-- ---------------------------------------

/-- Modelled from the spec: the handlers of the full action vocabulary
of section 6.  The handlers for the confirm and compound kinds are not
part of src/lib/client.js (only their tests, in src/test/vows, exercise
them), so the handler set is taken from the published vocabulary. -/
inductive ActionHandler
  | genericRequest
  | ajaxRequest
  | getRequest
  | postRequest
  | pageUnload
  | loadStaticAssets
  | channelConnect
  | emitEvent
  | awaitEmit
  | confirmNoEmit
  | confirmNoMatchingEmit
  | connectAndAwaitEmit
  | connectAndConfirmNoEmit
deriving DecidableEq

/-- Modelled from the spec: the published action-kind vocabulary. -/
def actionVocabulary : List String :=
  ["generic-request", "ajax", "get", "post", "page-unload", "load-static-assets",
   "channel-connect", "emit", "await-emit", "confirm-no-emit",
   "confirm-no-matching-emit", "connect-and-await-emit", "connect-and-confirm-no-emit"]

/-- Modelled from the spec: the kind-to-handler resolution of the
dispatcher (the method lookup by name in p.action). -/
def handlerFor (kind : String) : Option ActionHandler :=
  if kind = "generic-request" then some .genericRequest
  else if kind = "ajax" then some .ajaxRequest
  else if kind = "get" then some .getRequest
  else if kind = "post" then some .postRequest
  else if kind = "page-unload" then some .pageUnload
  else if kind = "load-static-assets" then some .loadStaticAssets
  else if kind = "channel-connect" then some .channelConnect
  else if kind = "emit" then some .emitEvent
  else if kind = "await-emit" then some .awaitEmit
  else if kind = "confirm-no-emit" then some .confirmNoEmit
  else if kind = "confirm-no-matching-emit" then some .confirmNoMatchingEmit
  else if kind = "connect-and-await-emit" then some .connectAndAwaitEmit
  else if kind = "connect-and-confirm-no-emit" then some .connectAndConfirmNoEmit
  else none

/-- Result of dispatching a kind. -/
inductive DispatchResult
  | handled (h : ActionHandler)
  | noSuchAction (msg : String)
deriving DecidableEq

/-- Modelled from the spec: the dispatcher resolves the kind through the
handler table and fails with the no-such-action error when no handler
exists. -/
def dispatch (kind : String) : DispatchResult :=
  match handlerFor kind with
  | some h => .handled h
  | none => .noSuchAction ("No such action type: " ++ kind)

-- ---------------------------------------
-- C4
-- ---------------------------------------

/-- C4: every kind of the published vocabulary resolves to exactly one
handler, and the no-such-action error occurs exactly for kinds outside
the vocabulary. -/
theorem dispatch_vocabulary (kind : String) :
    (kind ∈ actionVocabulary →
      ∃ h, dispatch kind = .handled h ∧ ∀ h', dispatch kind = .handled h' → h' = h)
  ∧ (kind ∉ actionVocabulary →
      dispatch kind = .noSuchAction ("No such action type: " ++ kind))
  ∧ (∀ m, dispatch kind = .noSuchAction m → kind ∉ actionVocabulary) := by
  have main : kind ∈ actionVocabulary →
      ∃ h, dispatch kind = .handled h ∧ ∀ h', dispatch kind = .handled h' → h' = h := by
    intro hmem
    simp only [actionVocabulary, List.mem_cons, List.not_mem_nil, or_false] at hmem
    rcases hmem with rfl | rfl | rfl | rfl | rfl | rfl | rfl | rfl | rfl | rfl | rfl | rfl | rfl <;>
      exact ⟨_, rfl, fun h' hh => by injection hh with h; exact h.symm⟩
  refine ⟨main, ?_, ?_⟩
  · intro hnot
    simp only [actionVocabulary, List.mem_cons, List.not_mem_nil, or_false, not_or] at hnot
    obtain ⟨n1, n2, n3, n4, n5, n6, n7, n8, n9, n10, n11, n12, n13⟩ := hnot
    simp [dispatch, handlerFor, n1, n2, n3, n4, n5, n6, n7, n8, n9, n10, n11, n12, n13]
  · intro m hm hmem
    obtain ⟨h, hh, _⟩ := main hmem
    rw [hh] at hm
    cases hm

/-- Witness for C4 at concrete kinds: channel-connect resolves to a
handler, a kind outside the vocabulary yields the no-such-action error. -/
theorem dispatch_vocabulary_witness :
    (∃ h, dispatch "channel-connect" = .handled h ∧
      ∀ h', dispatch "channel-connect" = .handled h' → h' = h)
  ∧ dispatch "bogus" = .noSuchAction "No such action type: bogus" :=
  ⟨(dispatch_vocabulary "channel-connect").1 (by decide),
   (dispatch_vocabulary "bogus").2.1 (by decide)⟩

-- ---------------------------------------
-- Timeout resolution (C5, spec-modelled)
-- ---------------------------------------

/-- Modelled from the spec: the hard fallback timeout of the full client
(the spec fixes no numeric value; the repository examples use 500
milliseconds for connect timeouts). -/
def hardFallbackTimeout : Nat := 500

/-- Modelled from the spec: resolution of the effective timeout, from
action timeout to configured session default (a number, or a function
evaluated at call time to its value) to the hard fallback. -/
def resolveTimeout (actionTimeout sessionDefault : Option Nat) : Nat :=
  match actionTimeout with
  | some t => t
  | none =>
    match sessionDefault with
    | some d => d
    | none => hardFallbackTimeout

/-- Modelled from the spec: the timer delay a channel-connect or an
await/confirm action of the full client installs (the client version
implementing this resolution is not in src/lib/client.js; its tests in
src/test configure sockets.defaultTimeout and omit action timeouts). -/
def installedTimerDelay (actionTimeout : Option Nat) (cfg : ClientConfig) : Nat :=
  resolveTimeout actionTimeout cfg.defaultTimeout

-- ---------------------------------------
-- C5
-- ---------------------------------------

/-- C5: the effective timeout of channel-connect and await/confirm
actions is the action's own timeout when present, otherwise the session
default, otherwise the hard fallback, so a timer delay is always
resolved even when the action omits a timeout. -/
theorem timeout_resolution_priority (cfg : ClientConfig) (aT : Option Nat) :
    (∀ t, aT = some t → installedTimerDelay aT cfg = t)
  ∧ (∀ d, aT = none → cfg.defaultTimeout = some d → installedTimerDelay aT cfg = d)
  ∧ (aT = none → cfg.defaultTimeout = none →
      installedTimerDelay aT cfg = hardFallbackTimeout) := by
  refine ⟨?_, ?_, ?_⟩
  · intro t ht
    subst ht
    rfl
  · intro d ha hd
    subst ha
    simp [installedTimerDelay, resolveTimeout, hd]
  · intro ha hd
    subst ha
    simp [installedTimerDelay, resolveTimeout, hd]

/-- Witness for C5 at concrete inputs, one per priority level. -/
theorem timeout_resolution_priority_witness :
    installedTimerDelay (some 200) ⟨⟨"http", "localhost", 10080⟩, "", some 300⟩ = 200
  ∧ installedTimerDelay none ⟨⟨"http", "localhost", 10080⟩, "", some 300⟩ = 300
  ∧ installedTimerDelay none ⟨⟨"http", "localhost", 10080⟩, "", none⟩ = hardFallbackTimeout :=
  ⟨(timeout_resolution_priority ⟨⟨"http", "localhost", 10080⟩, "", some 300⟩ (some 200)).1 200 rfl,
   (timeout_resolution_priority ⟨⟨"http", "localhost", 10080⟩, "", some 300⟩ none).2.1 300 rfl rfl,
   (timeout_resolution_priority ⟨⟨"http", "localhost", 10080⟩, "", none⟩ none).2.2 rfl rfl⟩

end WorkAlready
